import Mathlib

/-! Verification development for the rust-script compiler front end and
JavaScript backend.  The Rust source is shallowly embedded: the lazy
character/token iterators become functions over `List Char` / `List Token`
returning `Except Err`, with every `panic!`, `todo!`, `unimplemented!`,
failed `assert_eq!` and `unwrap` of `None` modelled as a distinguished
error value (a Rust panic aborts the run).  `std::collections::HashMap`
is modelled as an insertion-ordered association list; where a claim
depends on the map's seed-dependent iteration order, the order is made
an explicit parameter.  Recursion that is not structural in the source
(mutually recursive parser productions, nested function bodies) takes an
explicit fuel argument; fuel exhaustion is a modelling artefact that is
never reached at the fuel budgets used here.
-/

namespace RustScript

/-- Tokens, from src/frontend/tokenizer.rs (enum Token). -/
inductive Token : Type where
  | identifier (name : String)
  | keywordFn
  | keywordData
  | keywordLet
  | literalNumber (text : String)
  | literalTrue
  | literalFalse
  | parenLeft
  | parenRight
  | braceLeft
  | braceRight
  | bracketLeft
  | bracketRight
  | arrowLeft
  | arrowRight
  | period
  | comma
  | colon
  | semiColon
  | equals
deriving DecidableEq, Repr

/-- Every abort point of the Rust source (panics of all flavours) plus the
fuel-exhaustion artefact of the embedding. -/
inductive Err : Type where
  /-- tokenizer.rs line 138: todo! on an unrecognized character. -/
  | unrecognizedChar (c : Char)
  /-- Fuel exhausted (embedding artefact only). -/
  | fuelExhausted
  /-- A failed assert_eq! in the parser. -/
  | assertFailed
  /-- eat_identifier hit unreachable! (next token absent or not an identifier). -/
  | eatIdentifierPanic
  /-- An unimplemented!() parser branch. -/
  | unimplementedBranch
  /-- A todo!() parser branch. -/
  | todoBranch
  /-- parse_expression peeked with .unwrap() on an exhausted stream. -/
  | peekNonePanic
  /-- frontend/mod.rs: panic "unknown type". -/
  | unknownType (t : String)
  /-- frontend/mod.rs: panic "duplicate type". -/
  | duplicateType (n : String)
  /-- frontend/mod.rs: panic "duplicate field". -/
  | duplicateField (n : String)
  /-- frontend/mod.rs: panic "duplicate variant". -/
  | duplicateVariant (n : String)
  /-- frontend/mod.rs: panic on duplicate function insertion. -/
  | duplicateFunction (n : String)
deriving DecidableEq, Repr

/-- Whitespace characters skipped by Tokenizer::parse_whitespace. -/
def wsChar (c : Char) : Bool :=
  c = ' ' || c = '\n' || c = '\r' || c = '\t'

/-- Characters accepted by Tokenizer::parse_identifier (first and rest). -/
def wordChar (c : Char) : Bool :=
  ('a' ≤ c && c ≤ 'z') || ('A' ≤ c && c ≤ 'Z') || c = '_'

/-- Characters accepted by Tokenizer::parse_number. -/
def digitChar (c : Char) : Bool :=
  '0' ≤ c && c ≤ '9'

/-- Post-hoc keyword recognition at the end of parse_identifier. -/
def keywordOrIdentifier (s : String) : Token :=
  match s with
  | "fn" => .keywordFn
  | "data" => .keywordData
  | "let" => .keywordLet
  | "true" => .literalTrue
  | "false" => .literalFalse
  | _ => .identifier s

/-- The tokenizer (Iterator for Tokenizer, src/frontend/tokenizer.rs),
run to completion eagerly.  One unit of fuel is spent per consumed
character or emitted token, so fuel exceeding the input length never
runs out.  All inputs examined by the claims lex in full, so eager
evaluation agrees with the lazy Rust iterator on them. -/
def tokenize : Nat → List Char → Except Err (List Token)
  | 0, _ => .error .fuelExhausted
  | _, [] => .ok []
  | fuel + 1, c :: rest =>
    if wsChar c then tokenize fuel rest
    else if wordChar c then do
      let word := String.mk (c :: rest.takeWhile wordChar)
      let ts ← tokenize fuel (rest.dropWhile wordChar)
      .ok (keywordOrIdentifier word :: ts)
    else if digitChar c then do
      let text := String.mk (c :: rest.takeWhile digitChar)
      let ts ← tokenize fuel (rest.dropWhile digitChar)
      .ok (.literalNumber text :: ts)
    else
      match c with
      | '(' => do let ts ← tokenize fuel rest; .ok (.parenLeft :: ts)
      | ')' => do let ts ← tokenize fuel rest; .ok (.parenRight :: ts)
      | '{' => do let ts ← tokenize fuel rest; .ok (.braceLeft :: ts)
      | '}' => do let ts ← tokenize fuel rest; .ok (.braceRight :: ts)
      | '[' => do let ts ← tokenize fuel rest; .ok (.bracketLeft :: ts)
      | ']' => do let ts ← tokenize fuel rest; .ok (.bracketRight :: ts)
      | '<' => do let ts ← tokenize fuel rest; .ok (.arrowLeft :: ts)
      | '>' => do let ts ← tokenize fuel rest; .ok (.arrowRight :: ts)
      | '.' => do let ts ← tokenize fuel rest; .ok (.period :: ts)
      | ',' => do let ts ← tokenize fuel rest; .ok (.comma :: ts)
      | ':' => do let ts ← tokenize fuel rest; .ok (.colon :: ts)
      | ';' => do let ts ← tokenize fuel rest; .ok (.semiColon :: ts)
      | '=' => do let ts ← tokenize fuel rest; .ok (.equals :: ts)
      | _ => .error (.unrecognizedChar c)

/-- Tokenize a whole string with adequate fuel. -/
def tokenizeText (s : String) : Except Err (List Token) :=
  tokenize (s.toList.length + 1) s.toList

/-- AST: enum DataVariant (src/frontend/parser.rs). -/
inductive DataVariant : Type where
  | marker (name : String)
  | tuple (name : String) (fields : List String)
  | struct (name : String) (fields : List (String × String))
deriving DecidableEq, Repr

/-- DataVariant::name. -/
def DataVariant.name : DataVariant → String
  | .marker n => n
  | .tuple n _ => n
  | .struct n _ => n

/-- AST: enum DataItem (src/frontend/parser.rs). -/
inductive DataItem : Type where
  | single (variant : DataVariant)
  | multiple (name : String) (variants : List DataVariant)
deriving DecidableEq, Repr

/-- DataItem::name. -/
def DataItem.name : DataItem → String
  | .single v => v.name
  | .multiple n _ => n

mutual

/-- AST: struct Block (src/frontend/parser.rs). -/
inductive Block : Type where
  | mk (stmts : List Statement)

/-- AST: enum Statement. -/
inductive Statement : Type where
  | dataItem (d : DataItem)
  | functionItem (f : FunctionItem)
  | letItem (l : LetItem)
  | expression (e : Expression)

/-- AST: struct FunctionItem. -/
inductive FunctionItem : Type where
  | mk (name : String) (arguments : List (String × String)) (body : Block)

/-- AST: struct LetItem. -/
inductive LetItem : Type where
  | mk (name : String) (type : String) (expression : Expression)

/-- AST: enum Expression. -/
inductive Expression : Type where
  | block (b : Block)
  | literalInteger (text : String)
  | literalBoolean (b : Bool)
  | functionCall (name : String) (arguments : List Expression)

end

/-- Block field accessor. -/
def Block.stmts : Block → List Statement
  | .mk s => s

/-- FunctionItem field accessors. -/
def FunctionItem.name : FunctionItem → String
  | .mk n _ _ => n

def FunctionItem.body : FunctionItem → Block
  | .mk _ _ b => b

/-- Statement::data_item_ref. -/
def Statement.dataItemRef : Statement → Option DataItem
  | .dataItem d => some d
  | _ => none

/-- Statement::function_item_ref. -/
def Statement.functionItemRef : Statement → Option FunctionItem
  | .functionItem f => some f
  | _ => none

/-- The tuple-struct field loop of parse_data (parser.rs lines 347-366):
top-of-loop peek of ParenRight eats it and breaks WITHOUT reading the
semicolon; the in-match ParenRight arm asserts the semicolon. -/
def parseDataTupleLoop (name : String) (fields : List String) :
    List Token → Except Err (DataItem × List Token)
  | .parenRight :: rest => .ok (.single (.tuple name fields), rest)
  | .identifier f :: rest =>
    match rest with
    | .comma :: rest1 => parseDataTupleLoop name (fields ++ [f]) rest1
    | .parenRight :: rest1 =>
      match rest1 with
      | .semiColon :: rest2 => .ok (.single (.tuple name (fields ++ [f])), rest2)
      | _ => .error .assertFailed
    | _ => .error .unimplementedBranch
  | _ => .error .eatIdentifierPanic

/-- The single-struct field loop of parse_data (parser.rs lines 197-214). -/
def parseSingleStructLoop (name : String) (fields : List (String × String)) :
    List Token → Except Err (DataItem × List Token)
  | .comma :: rest =>
    match rest with
    | .identifier f :: rest1 =>
      match rest1 with
      | .colon :: .identifier ty :: rest2 =>
        parseSingleStructLoop name (fields ++ [(f, ty)]) rest2
      | .colon :: _ => .error .eatIdentifierPanic
      | _ => .error .assertFailed
    | _ => .error .eatIdentifierPanic
  | .braceRight :: rest => .ok (.single (.struct name fields), rest)
  | _ => .error .unimplementedBranch

/-- The struct field loop for the FIRST enum variant (parser.rs lines
221-241); its terminator arm correctly matches BraceRight. -/
def parseFirstEnumStructFields (vname : String) (fields : List (String × String)) :
    List Token → Except Err (DataVariant × List Token)
  | .braceRight :: rest => .ok (.struct vname fields, rest)
  | .identifier f :: rest =>
    match rest with
    | .colon :: .identifier ty :: rest1 =>
      (match rest1 with
       | .comma :: rest2 => parseFirstEnumStructFields vname (fields ++ [(f, ty)]) rest2
       | .braceRight :: rest2 => .ok (.struct vname (fields ++ [(f, ty)]), rest2)
       | _ => .error .unimplementedBranch)
    | .colon :: _ => .error .eatIdentifierPanic
    | _ => .error .assertFailed
  | _ => .error .eatIdentifierPanic

/-- The struct field loop for LATER enum variants (parser.rs lines
280-299); its terminator arm matches ParenRight instead of BraceRight,
so a non-empty field list not ending in a comma hits unimplemented!. -/
def parseLaterEnumStructFields (vname : String) (fields : List (String × String)) :
    List Token → Except Err (DataVariant × List Token)
  | .braceRight :: rest => .ok (.struct vname fields, rest)
  | .identifier f :: rest =>
    match rest with
    | .colon :: .identifier ty :: rest1 =>
      (match rest1 with
       | .comma :: rest2 => parseLaterEnumStructFields vname (fields ++ [(f, ty)]) rest2
       | .parenRight :: rest2 => .ok (.struct vname (fields ++ [(f, ty)]), rest2)
       | _ => .error .unimplementedBranch)
    | .colon :: _ => .error .eatIdentifierPanic
    | _ => .error .assertFailed
  | _ => .error .eatIdentifierPanic

/-- The tuple field loop of an enum variant (parser.rs lines 244-261 and
identically 303-320). -/
def parseEnumTupleFields (vname : String) (fields : List String) :
    List Token → Except Err (DataVariant × List Token)
  | .parenRight :: rest => .ok (.tuple vname fields, rest)
  | .identifier f :: rest =>
    match rest with
    | .comma :: rest1 => parseEnumTupleFields vname (fields ++ [f]) rest1
    | .parenRight :: rest1 => .ok (.tuple vname (fields ++ [f]), rest1)
    | _ => .error .unimplementedBranch
  | _ => .error .eatIdentifierPanic

/-- The loop over the remaining enum variants (parser.rs lines 276-334):
reads a variant name, classifies it by the NEXT token (BraceLeft struct,
ParenLeft tuple, Colon marker, anything else unimplemented!), then
expects a comma or the closing brace. -/
def parseEnumVariantsLoop : Nat → String → List DataVariant →
    List Token → Except Err (DataItem × List Token)
  | 0, _, _, _ => .error .fuelExhausted
  | fuel + 1, name, variants, ts =>
    match ts with
    | .identifier v :: ts1 => do
      let (variant, r) ←
        match ts1 with
        | .braceLeft :: ts2 => parseLaterEnumStructFields v [] ts2
        | .parenLeft :: ts2 => parseEnumTupleFields v [] ts2
        | .colon :: ts2 => .ok (DataVariant.marker v, ts2)
        | _ => .error .unimplementedBranch
      match r with
      | .comma :: r1 => parseEnumVariantsLoop fuel name (variants ++ [variant]) r1
      | .braceRight :: r1 => .ok (.multiple name (variants ++ [variant]), r1)
      | _ => .error .unimplementedBranch
    | _ => .error .eatIdentifierPanic

/-- After the first enum variant (parser.rs lines 270-275): a comma
continues into the variants loop, a closing brace returns. -/
def parseEnumContinue (fuel : Nat) (name : String) (variants : List DataVariant) :
    List Token → Except Err (DataItem × List Token)
  | .comma :: rest => parseEnumVariantsLoop fuel name variants rest
  | .braceRight :: rest => .ok (.multiple name variants, rest)
  | _ => .error .unimplementedBranch

/-- Parser::parse_data (parser.rs lines 183-374).  After data NAME with a
brace, one identifier is read and the next token peeked: a colon means a
single struct; otherwise the enum branch re-reads that peeked token to
classify the first variant (note its Colon arm is unreachable, since a
peeked colon took the struct branch). -/
def parseData (fuel : Nat) : List Token → Except Err (DataItem × List Token)
  | .keywordData :: ts =>
    match ts with
    | .identifier name :: ts1 =>
      (match ts1 with
       | .braceLeft :: ts2 =>
         (match ts2 with
          | .identifier variant :: ts3 =>
            (match ts3 with
             | .colon :: ts4 =>
               (match ts4 with
                | .identifier ty :: ts5 => parseSingleStructLoop name [(variant, ty)] ts5
                | _ => .error .eatIdentifierPanic)
             | .braceLeft :: ts4 => do
               let (v, r) ← parseFirstEnumStructFields variant [] ts4
               parseEnumContinue fuel name [v] r
             | .parenLeft :: ts4 => do
               let (v, r) ← parseEnumTupleFields variant [] ts4
               parseEnumContinue fuel name [v] r
             | _ => .error .unimplementedBranch)
          | .braceRight :: ts3 => .ok (.multiple name [], ts3)
          | _ => .error .unimplementedBranch)
       | .parenLeft :: ts2 => parseDataTupleLoop name [] ts2
       | .semiColon :: ts2 => .ok (.single (.marker name), ts2)
       | _ => .error .unimplementedBranch)
    | _ => .error .eatIdentifierPanic
  | _ => .error .assertFailed

/-- Parser::parse_function (parser.rs lines 170-181), parameterized by
the block parser it recurses into. -/
def parseFunction (pb : List Token → Except Err (Block × List Token)) :
    List Token → Except Err (FunctionItem × List Token)
  | .keywordFn :: ts =>
    match ts with
    | .identifier name :: .parenLeft :: .parenRight :: .braceLeft :: ts1 => do
      let (body, r) ← pb ts1
      match r with
      | .braceRight :: r1 => .ok (.mk name [] body, r1)
      | _ => .error .assertFailed
    | .identifier _ :: _ => .error .assertFailed
    | _ => .error .eatIdentifierPanic
  | _ => .error .assertFailed

/-- Parser::parse_expression (parser.rs lines 388-424), parameterized by
the block parser.  Note lines 407-410: after peeking ParenLeft the code
asserts that next() IS ParenRight, but next() returns the peeked
ParenLeft, so every call expression fails that assert. -/
def parseExpression (pb : List Token → Except Err (Block × List Token)) :
    List Token → Except Err (Expression × List Token)
  | .braceLeft :: ts => do
    let (b, r) ← pb ts
    match r with
    | .braceRight :: r1 => .ok (.block b, r1)
    | _ => .error .assertFailed
  | .literalNumber n :: ts => .ok (.literalInteger n, ts)
  | .literalTrue :: ts => .ok (.literalBoolean true, ts)
  | .literalFalse :: ts => .ok (.literalBoolean false, ts)
  | .identifier _ :: ts =>
    (match ts with
     | .parenLeft :: _ => .error .assertFailed
     | _ => .error .todoBranch)
  | [] => .error .peekNonePanic
  | _ => .error .unimplementedBranch

/-- Parser::parse_let (parser.rs lines 376-386), parameterized by the
expression parser. -/
def parseLet (pe : List Token → Except Err (Expression × List Token)) :
    List Token → Except Err (LetItem × List Token)
  | .keywordLet :: ts =>
    match ts with
    | .identifier name :: .colon :: .identifier ty :: .equals :: ts1 => do
      let (e, r) ← pe ts1
      match r with
      | .semiColon :: r1 => .ok (.mk name ty e, r1)
      | _ => .error .assertFailed
    | .identifier _ :: .colon :: .identifier _ :: _ => .error .assertFailed
    | .identifier _ :: .colon :: _ => .error .eatIdentifierPanic
    | .identifier _ :: _ => .error .assertFailed
    | _ => .error .eatIdentifierPanic
  | _ => .error .assertFailed

/-- Parser::parse_block (parser.rs lines 154-168): dispatches on the
peeked token; any token other than the three keywords (or end of
stream) terminates the block without being consumed.  Fuel is spent per
parsed statement. -/
def parseBlock : Nat → List Token → Except Err (Block × List Token)
  | 0, _ => .error .fuelExhausted
  | fuel + 1, ts =>
    match ts with
    | .keywordFn :: _ => do
      let (f, r) ← parseFunction (parseBlock fuel) ts
      let (b, r1) ← parseBlock fuel r
      .ok (.mk (.functionItem f :: b.stmts), r1)
    | .keywordData :: _ => do
      let (d, r) ← parseData fuel ts
      let (b, r1) ← parseBlock fuel r
      .ok (.mk (.dataItem d :: b.stmts), r1)
    | .keywordLet :: _ => do
      let (l, r) ← parseLet (parseExpression (parseBlock fuel)) ts
      let (b, r1) ← parseBlock fuel r
      .ok (.mk (.letItem l :: b.stmts), r1)
    | _ => .ok (.mk [], ts)

/-! IR layer (src/frontend/mod.rs).

`IStr` in the source is `(PhantomData<&'s ()>, Box<str>)`, i.e. a plain
string; it is modelled as `String`.  Every `HashMap` is modelled as an
insertion-ordered association list; duplicate-checked insertion mirrors
the source's `if map.insert(k, v).is_some() { panic!(...) }`. -/

/-- enum GenericFormat (frontend/mod.rs lines 27-36). -/
inductive GenericFormat (V : Type) : Type where
  | marker
  | unnamed (fields : List String)
  | named (fields : List (String × String)) (variants : V)
deriving DecidableEq, Repr

/-- type EnumVariantFormat = GenericFormat with V = unit. -/
abbrev EnumVariantFormat : Type := GenericFormat Unit

/-- type DataFormat = GenericFormat with V = map variant-name to
EnumVariantFormat. -/
abbrev DataFormat : Type := GenericFormat (List (String × EnumVariantFormat))

/-- enum Type (frontend/mod.rs lines 10-15); spelled Ty since Type is a
Lean keyword. -/
inductive Ty : Type where
  | user (format : DataFormat)
  | integer
deriving DecidableEq, Repr

/-- Type::format_ref. -/
def Ty.formatRef : Ty → Option DataFormat
  | .user f => some f
  | .integer => none

mutual

/-- struct Scope (frontend/mod.rs lines 54-58): the types and functions
maps, in insertion order. -/
inductive Scope : Type where
  | mk (types : List (String × Ty)) (functions : List (String × Function))

/-- struct Function (frontend/mod.rs lines 44-47). -/
inductive Function : Type where
  | mk (code : Code)

/-- struct Code (frontend/mod.rs lines 49-52). -/
inductive Code : Type where
  | mk (scope : Scope)

end

/-- Scope field accessors. -/
def Scope.types : Scope → List (String × Ty)
  | .mk t _ => t

def Scope.functions : Scope → List (String × Function)
  | .mk _ f => f

/-- Code field accessor. -/
def Code.scope : Code → Scope
  | .mk s => s

/-- struct ScopeRef (frontend/mod.rs lines 66-71): a borrowed chain of a
local scope and an optional outer chain. -/
inductive ScopeRef : Type where
  | mk (loc : Scope) (outer : Option ScopeRef)

/-- ScopeRef::has_type (frontend/mod.rs lines 82-86): the local types
map, then the outer chain recursively, defaulting to false. -/
def ScopeRef.hasType : ScopeRef → String → Bool
  | .mk loc (some outer), t => loc.types.any (fun p => p.1 = t) || outer.hasType t
  | .mk loc none, t => loc.types.any (fun p => p.1 = t) || false

/-- Duplicate-checked map insertion: `if map.insert(k, v).is_some() {
panic!(...) }`, with the panic matching the call site's message. -/
def insertChecked (m : List (String × α)) (k : String) (v : α)
    (dup : String → Err) : Except Err (List (String × α)) :=
  if m.any (fun p => p.1 = k) then .error (dup k) else .ok (m ++ [(k, v)])

/-- The type-reference check inside construct_data_representation
(frontend/mod.rs lines 182-183 and 202-203). -/
def typeRefOk (scope : ScopeRef) (typeNames : List String) (t : String) : Bool :=
  scope.hasType t || typeNames.contains t

/-- The field mapping of the Tuple arm of construct_data_representation
(frontend/mod.rs lines 177-187): each field type is checked against the
scope chain and the harvested name set; the first failure panics. -/
def constructTupleFields (scope : ScopeRef) (typeNames : List String) :
    List String → Except Err (List String)
  | [] => .ok []
  | t :: rest =>
    if !scope.hasType t && !typeNames.contains t then .error (.unknownType t)
    else do
      let r ← constructTupleFields scope typeNames rest
      .ok (t :: r)

/-- The field fold of the Struct arm of construct_data_representation
(frontend/mod.rs lines 196-209): unknown-type check first, then
duplicate-field-checked insertion. -/
def constructStructFields (scope : ScopeRef) (typeNames : List String) :
    List (String × String) → List (String × String) →
    Except Err (List (String × String))
  | acc, [] => .ok acc
  | acc, (n, t) :: rest =>
    if !scope.hasType t && !typeNames.contains t then .error (.unknownType t)
    else do
      let acc1 ← insertChecked acc n t .duplicateField
      constructStructFields scope typeNames acc1 rest

/-- construct_data_representation (frontend/mod.rs lines 167-217).  The
Rust function is generic over V: Default; the default variants value is
passed explicitly. -/
def construct_data_representation {V : Type} (dflt : V) (variant : DataVariant)
    (scope : ScopeRef) (typeNames : List String) :
    Except Err (String × GenericFormat V) :=
  match variant with
  | .marker name => .ok (name, .marker)
  | .tuple name fields => do
    let fs ← constructTupleFields scope typeNames fields
    .ok (name, .unnamed fs)
  | .struct name fields => do
    let fs ← constructStructFields scope typeNames [] fields
    .ok (name, .named fs dflt)

/-- The harvested same-block type-name set (frontend/mod.rs lines
91-94): the names of all data items declared directly in the block. -/
def dataNames (block : Block) : List String :=
  (block.stmts.filterMap Statement.dataItemRef).map DataItem.name

/-- The function names declared directly in a block (frontend/mod.rs
lines 141-144). -/
def functionNames (block : Block) : List String :=
  (block.stmts.filterMap Statement.functionItemRef).map FunctionItem.name

/-- The variants fold of the Multiple arm (frontend/mod.rs lines
108-120): each variant is resolved as an EnumVariantFormat and inserted
with a duplicate-variant check. -/
def constructVariantsLoop (scope : ScopeRef) (typeNames : List String) :
    List (String × EnumVariantFormat) → List DataVariant →
    Except Err (List (String × EnumVariantFormat))
  | acc, [] => .ok acc
  | acc, v :: rest => do
    let (name, fmt) ← construct_data_representation () v scope typeNames
    let acc1 ← insertChecked acc name fmt .duplicateVariant
    constructVariantsLoop scope typeNames acc1 rest

/-- The match on one data item inside the types fold (frontend/mod.rs
lines 101-129): a Single item resolves directly, a Multiple item
becomes a Named format with an empty own-fields map and the resolved
variants map. -/
def constructTypeOf (scope : ScopeRef) (typeNames : List String) :
    DataItem → Except Err Ty
  | .single v => do
    let (_, fmt) ← construct_data_representation
      ([] : List (String × EnumVariantFormat)) v scope typeNames
    .ok (Ty.user fmt)
  | .multiple _ variants => do
    let vs ← constructVariantsLoop scope typeNames [] variants
    .ok (Ty.user (.named [] vs))

/-- The types fold of construct_main_representation (frontend/mod.rs
lines 97-137); insertion is duplicate-type-checked. -/
def constructTypesLoop (scope : ScopeRef) (typeNames : List String) :
    List (String × Ty) → List Statement → Except Err (List (String × Ty))
  | acc, [] => .ok acc
  | acc, s :: rest =>
    match s.dataItemRef with
    | none => constructTypesLoop scope typeNames acc rest
    | some d => do
      let ty ← constructTypeOf scope typeNames d
      let acc1 ← insertChecked acc d.name ty .duplicateType
      constructTypesLoop scope typeNames acc1 rest

/-- The functions fold of construct_main_representation (frontend/mod.rs
lines 147-162), parameterized by the recursive body constructor.  The
source passes the block's OWN ScopeRef argument, unchanged, into each
function body (the line marked TODO: Fix scoping). -/
def constructFunctionsLoop (recur : Block → ScopeRef → Except Err Code)
    (scope : ScopeRef) : List (String × Function) → List Statement →
    Except Err (List (String × Function))
  | acc, [] => .ok acc
  | acc, s :: rest =>
    match s.functionItemRef with
    | none => constructFunctionsLoop recur scope acc rest
    | some f => do
      let code ← recur f.body scope
      let acc1 ← insertChecked acc f.name (Function.mk code) .duplicateFunction
      constructFunctionsLoop recur scope acc1 rest

/-- construct_main_representation (frontend/mod.rs lines 88-165).  Fuel
bounds the nesting depth of function bodies. -/
def construct_main_representation : Nat → Block → ScopeRef → Except Err Code
  | 0, _, _ => .error .fuelExhausted
  | fuel + 1, block, scope => do
    let typeNames := dataNames block
    let types ← constructTypesLoop scope typeNames [] block.stmts
    let functions ← constructFunctionsLoop
      (fun b sc => construct_main_representation fuel b sc) scope [] block.stmts
    .ok (Code.mk (Scope.mk types functions))

/-! Backend layer (src/backend/javascript/mod.rs). -/

namespace Javascript

/-- struct ClassItem (backend/javascript/mod.rs lines 56-60). -/
structure ClassItem : Type where
  name : String
  fields : List String
deriving DecidableEq, Repr

/-- enum Statement (backend/javascript/mod.rs lines 27-34). -/
inductive Statement : Type where
  | classItem (c : ClassItem)
  | functionItem
  | varDeclaration
  | letDeclaration
  | constDeclaration
deriving DecidableEq, Repr

/-- Statement::requires_semicolon (backend/javascript/mod.rs lines
37-42): every current arm returns false. -/
def Statement.requiresSemicolon : Statement → Bool :=
  fun _ => false

/-- struct Block (backend/javascript/mod.rs line 13). -/
structure Block : Type where
  stmts : List Statement
deriving DecidableEq, Repr

/-- Rust's Debug formatting of a string (the `this[{:?}]` write).  Only
quote and backslash escapes are implemented: every string reaching this
point is identifier text ([A-Za-z_]*) or a _N index, on which Debug
formatting is exactly quote-wrapping. -/
def rustDebug (s : String) : String :=
  "\x22" ++ String.mk (s.toList.flatMap fun c =>
    if c = '\x22' || c = '\\' then ['\\', c] else [c]) ++ "\x22"

/-- The constructor parameter list of Display for ClassItem (lines
63-68): positional parameters _0, _1, ... separated by commas. -/
def renderParams (n : Nat) : String :=
  String.intercalate "," ((List.range n).map fun i => "_" ++ toString i)

/-- The constructor body of Display for ClassItem (lines 70-76):
this["field"]=_i assignments separated by semicolons. -/
def renderAssigns (fields : List String) : String :=
  String.intercalate ";" (fields.enum.map fun p =>
    "this[" ++ rustDebug p.2 ++ "]=_" ++ toString p.1)

/-- Display for ClassItem (backend/javascript/mod.rs lines 62-78). -/
def renderClassItem (c : ClassItem) : String :=
  "class " ++ c.name ++ "\x7bconstructor(" ++ renderParams c.fields.length
    ++ ")\x7b" ++ renderAssigns c.fields ++ "\x7d\x7d"

/-- Display for Statement (lines 45-52); the non-class arms are todo!()
and are never produced by from_main_representation. -/
def renderStatement : Statement → String
  | .classItem c => renderClassItem c
  | _ => ""

/-- Display for Block (backend/javascript/mod.rs lines 15-25): a
statement is prefixed with a semicolon exactly when it has a
predecessor that requires one. -/
def renderBlockAux : Option Statement → List Statement → String
  | _, [] => ""
  | prev, s :: rest =>
    (match prev with
     | some p => if p.requiresSemicolon then ";" else ""
     | none => "") ++ renderStatement s ++ renderBlockAux (some s) rest

def renderBlock (b : Block) : String :=
  renderBlockAux none b.stmts

end Javascript

/-- The per-variant field-name streams inside the Named arm of
from_main_representation (backend/javascript/mod.rs lines 124-137):
markers contribute nothing, tuples contribute _0.._n-1, structs
contribute their field names. -/
def variantFieldNames : EnumVariantFormat → List String
  | .marker => []
  | .unnamed fields => (List.range fields.length).map fun i => "_" ++ toString i
  | .named fields _ => fields.map Prod.fst

/-- itertools dedup(): remove CONSECUTIVE repeated elements, keeping the
first of each run. -/
def dedupConsecutive : List String → List String
  | [] => []
  | [a] => [a]
  | a :: b :: rest =>
    if a = b then dedupConsecutive (b :: rest)
    else a :: dedupConsecutive (b :: rest)

/-- The fields list of the class emitted for a Named format
(backend/javascript/mod.rs lines 117-142): an optional leading _variant,
the format's own field names, then the concatenation of all variants'
field-name streams with consecutive duplicates removed. -/
def classFieldsOfNamed (fields : List (String × String))
    (variants : List (String × EnumVariantFormat)) : List String :=
  (if variants.isEmpty then [] else ["_variant"])
    ++ fields.map Prod.fst
    ++ dedupConsecutive ((variants.map fun v => variantFieldNames v.2).flatten)

/-- The ClassItem built for one (name, format) pair
(backend/javascript/mod.rs lines 104-143). -/
def classOfFormat (name : String) : DataFormat → Javascript.ClassItem
  | .marker => ⟨name, []⟩
  | .unnamed fields => ⟨name, (List.range fields.length).map fun i => "_" ++ toString i⟩
  | .named fields variants => ⟨name, classFieldsOfNamed fields variants⟩

/-- from_main_representation with the iteration order of the types map
made explicit: `code.scope.types` is a std HashMap, whose iteration
order is some seed-dependent permutation of its entries; a given run of
the program observes one such order. -/
def fromMainRepresentationOrd (types : List (String × Ty)) : Javascript.Block :=
  ⟨(types.filterMap fun p => p.2.formatRef.map (classOfFormat p.1)).map
    Javascript.Statement.classItem⟩

/-- from_main_representation (backend/javascript/mod.rs lines 80-148)
at the model's canonical (insertion-order) iteration order. -/
def from_main_representation (code : Code) : Javascript.Block :=
  fromMainRepresentationOrd code.scope.types

/-- The empty root scope chain a top-level build starts from. -/
def rootScopeRef : ScopeRef :=
  ScopeRef.mk (Scope.mk [] []) none

/-- The front half of the pipeline of spec section 2: text to tokens to
AST to IR, starting from the empty root scope.  Fuel budgets exceed the
token count and can never be exhausted. -/
def frontend (input : String) : Except Err Code := do
  let toks ← tokenizeText input
  let (block, _) ← parseBlock (toks.length + 1) toks
  construct_main_representation (toks.length + 1) block rootScopeRef

/-- The full pipeline of spec section 2: text to tokens to AST to IR to
output text, at the canonical iteration order. -/
def pipeline (input : String) : Except Err String := do
  let code ← frontend input
  .ok (Javascript.renderBlock (from_main_representation code))

/-- The type references a data variant makes (the strings checked by
construct_data_representation). -/
def DataVariant.typeRefs : DataVariant → List String
  | .marker _ => []
  | .tuple _ fields => fields
  | .struct _ fields => fields.map Prod.snd

/-- The field names a data variant declares (only structs have any). -/
def DataVariant.declaredFieldNames : DataVariant → List String
  | .marker _ => []
  | .tuple _ _ => []
  | .struct _ fields => fields.map Prod.fst

/-- Token builder: identifiers separated by commas, as inside
`data NAME(T1, T2, ...)`. -/
def commaSeparatedIdents : List String → List Token
  | [] => []
  | [f] => [Token.identifier f]
  | f :: rest => Token.identifier f :: Token.comma :: commaSeparatedIdents rest

/-- Token builder: the token stream of `data NAME(T1, ..., Tn);`. -/
def tupleDeclTokens (name : String) (fields : List String) : List Token :=
  Token.keywordData :: Token.identifier name :: Token.parenLeft ::
    (commaSeparatedIdents fields ++ [Token.parenRight, Token.semiColon])

/-! Supporting lemmas about the construction pass. -/

theorem insertChecked_of_not_mem {α : Type} {m : List (String × α)} {k : String}
    (v : α) (e : String → Err) (h : k ∉ m.map Prod.fst) :
    insertChecked m k v e = .ok (m ++ [(k, v)]) := by
  have : m.any (fun p => p.1 = k) = false := by
    simp only [List.any_eq_false, decide_eq_true_eq]
    intro p hp hk
    exact h (List.mem_map.mpr ⟨p, hp, hk⟩)
  simp [insertChecked, this]

theorem insertChecked_of_mem {α : Type} {m : List (String × α)} {k : String}
    (v : α) (e : String → Err) (h : k ∈ m.map Prod.fst) :
    insertChecked m k v e = .error (e k) := by
  obtain ⟨p, hp, hk⟩ := List.mem_map.mp h
  have : m.any (fun p => p.1 = k) = true :=
    List.any_eq_true.mpr ⟨p, hp, by simp [hk]⟩
  simp [insertChecked, this]

theorem typeRefOk_check (scope : ScopeRef) (names : List String) (t : String) :
    (!scope.hasType t && !names.contains t) = !typeRefOk scope names t := by
  simp [typeRefOk]

theorem constructTupleFields_cons (scope : ScopeRef) (names : List String)
    (t : String) (rest : List String) :
    constructTupleFields scope names (t :: rest) =
      if typeRefOk scope names t then
        (constructTupleFields scope names rest).map (fun r => t :: r)
      else .error (.unknownType t) := by
  show (if !scope.hasType t && !names.contains t then _ else _) = _
  rw [typeRefOk_check]
  cases typeRefOk scope names t with
  | false => simp
  | true =>
    simp only [Bool.not_true, Bool.false_eq_true, if_false, if_true]
    cases constructTupleFields scope names rest <;> rfl

theorem constructStructFields_cons (scope : ScopeRef) (names : List String)
    (acc : List (String × String)) (n t : String) (rest : List (String × String)) :
    constructStructFields scope names acc ((n, t) :: rest) =
      if typeRefOk scope names t then
        match insertChecked acc n t Err.duplicateField with
        | .ok acc1 => constructStructFields scope names acc1 rest
        | .error e => .error e
      else .error (.unknownType t) := by
  show (if !scope.hasType t && !names.contains t then _ else _) = _
  rw [typeRefOk_check]
  cases typeRefOk scope names t with
  | false => simp
  | true =>
    simp only [Bool.not_true, Bool.false_eq_true, if_false, if_true]
    cases insertChecked acc n t Err.duplicateField <;> rfl

theorem constructTupleFields_ok_of_all (scope : ScopeRef) (names : List String) :
    ∀ fields : List String, (∀ t ∈ fields, typeRefOk scope names t) →
      constructTupleFields scope names fields = .ok fields := by
  intro fields
  induction fields with
  | nil => intro _; rfl
  | cons t rest ih =>
    intro h
    have ht : typeRefOk scope names t := h t (by simp)
    have hrest := ih (fun u hu => h u (by simp [hu]))
    rw [constructTupleFields_cons, if_pos ht, hrest]
    rfl

theorem constructTupleFields_unknown_of_exists (scope : ScopeRef) (names : List String) :
    ∀ fields : List String, (∃ t ∈ fields, ¬ typeRefOk scope names t) →
      ∃ t ∈ fields, typeRefOk scope names t = false ∧
        constructTupleFields scope names fields = .error (.unknownType t) := by
  intro fields
  induction fields with
  | nil => rintro ⟨t, ht, _⟩; cases ht
  | cons t rest ih =>
    rintro ⟨u, hu, hbad⟩
    by_cases ht : typeRefOk scope names t = true
    · have hu' : u ∈ rest := by
        rcases List.mem_cons.mp hu with h | h
        · exact absurd ht (h ▸ hbad)
        · exact h
      obtain ⟨w, hw, hwbad, hweq⟩ := ih ⟨u, hu', hbad⟩
      refine ⟨w, by simp [hw], hwbad, ?_⟩
      rw [constructTupleFields_cons, if_pos ht, hweq]
      rfl
    · refine ⟨t, by simp, by simpa using ht, ?_⟩
      rw [constructTupleFields_cons, if_neg ht]

theorem not_mem_of_nodup_append_cons {l₁ l₂ : List String} {a : String}
    (h : (l₁ ++ a :: l₂).Nodup) : a ∉ l₁ := by
  intro hmem
  rcases List.nodup_append.mp h with ⟨-, -, hdisj⟩
  exact (hdisj hmem) (by simp)

theorem constructStructFields_ok (scope : ScopeRef) (names : List String) :
    ∀ (fields acc : List (String × String)),
      (acc.map Prod.fst ++ fields.map Prod.fst).Nodup →
      (∀ t ∈ fields.map Prod.snd, typeRefOk scope names t) →
      ∃ m, constructStructFields scope names acc fields = .ok m := by
  intro fields
  induction fields with
  | nil => exact fun acc _ _ => ⟨acc, rfl⟩
  | cons p rest ih =>
    rintro acc hnd hok
    obtain ⟨n, t⟩ := p
    have ht : typeRefOk scope names t := hok t (by simp)
    have hn : n ∉ acc.map Prod.fst :=
      not_mem_of_nodup_append_cons (by simpa using hnd)
    have hnd' : ((acc ++ [(n, t)]).map Prod.fst ++ rest.map Prod.fst).Nodup := by
      simpa [List.append_assoc] using hnd
    obtain ⟨m, hm⟩ := ih (acc ++ [(n, t)]) hnd' (fun u hu => hok u (by simp [hu]))
    refine ⟨m, ?_⟩
    rw [constructStructFields_cons, if_pos ht, insertChecked_of_not_mem _ _ hn]
    exact hm

theorem constructStructFields_unknown (scope : ScopeRef) (names : List String) :
    ∀ (fields acc : List (String × String)),
      (acc.map Prod.fst ++ fields.map Prod.fst).Nodup →
      (∃ t ∈ fields.map Prod.snd, ¬ typeRefOk scope names t) →
      ∃ t ∈ fields.map Prod.snd, typeRefOk scope names t = false ∧
        constructStructFields scope names acc fields = .error (.unknownType t) := by
  intro fields
  induction fields with
  | nil => rintro acc _ ⟨t, ht, _⟩; cases ht
  | cons p rest ih =>
    rintro acc hnd ⟨u, hu, hbad⟩
    obtain ⟨n, t⟩ := p
    by_cases ht : typeRefOk scope names t = true
    · have hu2 : u = t ∨ u ∈ rest.map Prod.snd := by simpa using hu
      have hu' : u ∈ rest.map Prod.snd := by
        rcases hu2 with h | h
        · exact absurd ht (h ▸ hbad)
        · exact h
      have hn : n ∉ acc.map Prod.fst :=
        not_mem_of_nodup_append_cons (by simpa using hnd)
      have hnd' : ((acc ++ [(n, t)]).map Prod.fst ++ rest.map Prod.fst).Nodup := by
        simpa [List.append_assoc] using hnd
      obtain ⟨w, hw, hwbad, hweq⟩ := ih (acc ++ [(n, t)]) hnd' ⟨u, hu', hbad⟩
      refine ⟨w, by simp [hw], hwbad, ?_⟩
      rw [constructStructFields_cons, if_pos ht, insertChecked_of_not_mem _ _ hn]
      exact hweq
    · refine ⟨t, by simp, by simpa using ht, ?_⟩
      rw [constructStructFields_cons, if_neg ht]

theorem constructStructFields_dup (scope : ScopeRef) (names : List String) :
    ∀ (fields acc : List (String × String)),
      (∀ t ∈ fields.map Prod.snd, typeRefOk scope names t) →
      (acc.map Prod.fst).Nodup →
      ¬ (acc.map Prod.fst ++ fields.map Prod.fst).Nodup →
      ∃ d, constructStructFields scope names acc fields = .error (.duplicateField d) := by
  intro fields
  induction fields with
  | nil => intro acc _ hnd hbad; exact absurd (by simpa using hnd) hbad
  | cons p rest ih =>
    rintro acc hok hnd hbad
    obtain ⟨n, t⟩ := p
    have ht : typeRefOk scope names t := hok t (by simp)
    by_cases hn : n ∈ acc.map Prod.fst
    · refine ⟨n, ?_⟩
      rw [constructStructFields_cons, if_pos ht, insertChecked_of_mem _ _ hn]
    · have hnd' : ((acc ++ [(n, t)]).map Prod.fst).Nodup := by
        simp only [List.map_append]
        exact List.Nodup.append hnd (by simp)
          (by simpa [List.disjoint_singleton] using hn)
      have hbad' : ¬ ((acc ++ [(n, t)]).map Prod.fst ++ rest.map Prod.fst).Nodup := by
        intro h
        exact hbad (by simpa [List.append_assoc] using h)
      obtain ⟨d, hd⟩ := ih (acc ++ [(n, t)]) (fun u hu => hok u (by simp [hu])) hnd' hbad'
      refine ⟨d, ?_⟩
      rw [constructStructFields_cons, if_pos ht, insertChecked_of_not_mem _ _ hn]
      exact hd

theorem insertChecked_ok_elim {α : Type} {m acc1 : List (String × α)} {k : String}
    {v : α} {e : String → Err} (h : insertChecked m k v e = .ok acc1) :
    k ∉ m.map Prod.fst ∧ acc1 = m ++ [(k, v)] := by
  by_cases hk : k ∈ m.map Prod.fst
  · rw [insertChecked_of_mem _ _ hk] at h
    cases h
  · rw [insertChecked_of_not_mem _ _ hk] at h
    injection h with h
    exact ⟨hk, h.symm⟩

theorem construct_data_representation_marker {V : Type} (dflt : V) (n : String)
    (scope : ScopeRef) (names : List String) :
    construct_data_representation dflt (DataVariant.marker n) scope names =
      .ok (n, .marker) := rfl

theorem construct_data_representation_tuple_eq {V : Type} (dflt : V) (n : String)
    (fields : List String) (scope : ScopeRef) (names : List String) :
    construct_data_representation dflt (DataVariant.tuple n fields) scope names =
      (constructTupleFields scope names fields).map
        (fun fs => (n, GenericFormat.unnamed fs)) := by
  simp only [construct_data_representation]
  cases constructTupleFields scope names fields <;> rfl

theorem construct_data_representation_struct_eq {V : Type} (dflt : V) (n : String)
    (fields : List (String × String)) (scope : ScopeRef) (names : List String) :
    construct_data_representation dflt (DataVariant.struct n fields) scope names =
      (constructStructFields scope names [] fields).map
        (fun fs => (n, GenericFormat.named fs dflt)) := by
  simp only [construct_data_representation]
  cases constructStructFields scope names [] fields <;> rfl

theorem construct_data_representation_name {V : Type} {dflt : V} {v : DataVariant}
    {scope : ScopeRef} {names : List String} {p : String × GenericFormat V}
    (h : construct_data_representation dflt v scope names = .ok p) :
    p.1 = v.name := by
  cases v with
  | marker n =>
    rw [construct_data_representation_marker] at h
    injection h with h
    rw [← h]
    rfl
  | tuple n fields =>
    rw [construct_data_representation_tuple_eq] at h
    cases hc : constructTupleFields scope names fields with
    | ok fs =>
      rw [hc] at h
      injection h with h
      rw [← h]
      rfl
    | error e =>
      rw [hc] at h
      cases h
  | struct n fields =>
    rw [construct_data_representation_struct_eq] at h
    cases hc : constructStructFields scope names [] fields with
    | ok fs =>
      rw [hc] at h
      injection h with h
      rw [← h]
      rfl
    | error e =>
      rw [hc] at h
      cases h

theorem construct_data_representation_isOk {V : Type} (dflt : V) (v : DataVariant)
    (scope : ScopeRef) (names : List String) (hnd : v.declaredFieldNames.Nodup) :
    (construct_data_representation dflt v scope names).isOk = true ↔
      ∀ t ∈ v.typeRefs, typeRefOk scope names t := by
  cases v with
  | marker n =>
    simp [construct_data_representation_marker, DataVariant.typeRefs,
      Except.isOk, Except.toBool]
  | tuple n fields =>
    rw [construct_data_representation_tuple_eq]
    by_cases h : ∀ t ∈ fields, typeRefOk scope names t = true
    · rw [constructTupleFields_ok_of_all _ _ _ h]
      simpa [DataVariant.typeRefs, Except.isOk, Except.toBool, Except.map] using h
    · push_neg at h
      obtain ⟨t, ht, htbad, heq⟩ := constructTupleFields_unknown_of_exists _ _ _ h
      rw [heq]
      simp only [Except.map, Except.isOk, Except.toBool, DataVariant.typeRefs]
      constructor
      · intro hfalse; cases hfalse
      · intro hall; exact absurd (hall t ht) (by simp [htbad])
  | struct n fields =>
    rw [construct_data_representation_struct_eq]
    have hnd0 : (([] : List (String × String)).map Prod.fst ++ fields.map Prod.fst).Nodup := by
      simpa [DataVariant.declaredFieldNames] using hnd
    by_cases h : ∀ t ∈ fields.map Prod.snd, typeRefOk scope names t = true
    · obtain ⟨m, hm⟩ := constructStructFields_ok _ _ fields [] hnd0 h
      rw [hm]
      simpa [DataVariant.typeRefs, Except.isOk, Except.toBool, Except.map] using h
    · push_neg at h
      obtain ⟨t, ht, htbad, heq⟩ := constructStructFields_unknown _ _ fields [] hnd0 h
      rw [heq]
      simp only [Except.map, Except.isOk, Except.toBool, DataVariant.typeRefs]
      constructor
      · intro hfalse; cases hfalse
      · intro hall; exact absurd (hall t ht) (by simp [htbad])

theorem construct_data_representation_unknown {V : Type} (dflt : V) (v : DataVariant)
    (scope : ScopeRef) (names : List String) (hnd : v.declaredFieldNames.Nodup)
    (hbad : ∃ t ∈ v.typeRefs, ¬ typeRefOk scope names t) :
    ∃ t ∈ v.typeRefs, typeRefOk scope names t = false ∧
      construct_data_representation dflt v scope names = .error (.unknownType t) := by
  cases v with
  | marker n => simp [DataVariant.typeRefs] at hbad
  | tuple n fields =>
    obtain ⟨t, ht, htbad, heq⟩ := constructTupleFields_unknown_of_exists scope names fields
      (by simpa [DataVariant.typeRefs] using hbad)
    refine ⟨t, by simpa [DataVariant.typeRefs] using ht, htbad, ?_⟩
    rw [construct_data_representation_tuple_eq, heq]
    rfl
  | struct n fields =>
    obtain ⟨t, ht, htbad, heq⟩ := constructStructFields_unknown scope names fields []
      (by simpa [DataVariant.declaredFieldNames] using hnd)
      (by simpa [DataVariant.typeRefs] using hbad)
    refine ⟨t, by simpa [DataVariant.typeRefs] using ht, htbad, ?_⟩
    rw [construct_data_representation_struct_eq, heq]
    rfl

theorem constructVariantsLoop_cons (scope : ScopeRef) (names : List String)
    (acc : List (String × EnumVariantFormat)) (v : DataVariant)
    (rest : List DataVariant) (nm : String) (fmt : EnumVariantFormat)
    (hc : construct_data_representation () v scope names = .ok (nm, fmt)) :
    constructVariantsLoop scope names acc (v :: rest) =
      match insertChecked acc nm fmt Err.duplicateVariant with
      | .ok acc1 => constructVariantsLoop scope names acc1 rest
      | .error e => .error e := by
  show (do
    let p ← construct_data_representation () v scope names
    let acc1 ← insertChecked acc p.1 p.2 Err.duplicateVariant
    constructVariantsLoop scope names acc1 rest) = _
  rw [hc]
  show (do
    let acc1 ← insertChecked acc nm fmt Err.duplicateVariant
    constructVariantsLoop scope names acc1 rest) = _
  cases insertChecked acc nm fmt Err.duplicateVariant <;> rfl

theorem constructVariantsLoop_dup (scope : ScopeRef) (names : List String) :
    ∀ (variants : List DataVariant) (acc : List (String × EnumVariantFormat)),
      (∀ v ∈ variants, (construct_data_representation () v scope names).isOk = true) →
      (acc.map Prod.fst).Nodup →
      ¬ (acc.map Prod.fst ++ variants.map DataVariant.name).Nodup →
      ∃ d, constructVariantsLoop scope names acc variants =
        .error (.duplicateVariant d) := by
  intro variants
  induction variants with
  | nil => intro acc _ hnd hbad; exact absurd (by simpa using hnd) hbad
  | cons v rest ih =>
    intro acc hok hnd hbad
    have hv := hok v (by simp)
    cases hc : construct_data_representation () v scope names with
    | error e =>
      rw [hc] at hv
      cases hv
    | ok p =>
      obtain ⟨nm, fmt⟩ := p
      have hname : nm = v.name := construct_data_representation_name hc
      subst hname
      by_cases hmem : v.name ∈ acc.map Prod.fst
      · refine ⟨v.name, ?_⟩
        rw [constructVariantsLoop_cons scope names acc v rest _ _ hc,
          insertChecked_of_mem _ _ hmem]
      · have hnd' : ((acc ++ [(v.name, fmt)]).map Prod.fst).Nodup := by
          simp only [List.map_append]
          exact List.Nodup.append hnd (by simp)
            (by simpa [List.disjoint_singleton] using hmem)
        have hbad' : ¬ ((acc ++ [(v.name, fmt)]).map Prod.fst
            ++ rest.map DataVariant.name).Nodup := by
          intro h
          exact hbad (by simpa [List.append_assoc] using h)
        obtain ⟨d, hd⟩ := ih (acc ++ [(v.name, fmt)])
          (fun u hu => hok u (by simp [hu])) hnd' hbad'
        refine ⟨d, ?_⟩
        rw [constructVariantsLoop_cons scope names acc v rest _ _ hc,
          insertChecked_of_not_mem _ _ hmem]
        exact hd

theorem constructTypesLoop_keys (scope : ScopeRef) (names : List String) :
    ∀ (stmts : List Statement) (acc m : List (String × Ty)),
      constructTypesLoop scope names acc stmts = .ok m →
      m.map Prod.fst = acc.map Prod.fst
        ++ (stmts.filterMap Statement.dataItemRef).map DataItem.name ∧
      ((acc.map Prod.fst).Nodup → (m.map Prod.fst).Nodup) := by
  intro stmts
  induction stmts with
  | nil =>
    intro acc m h
    injection h with h
    subst h
    simp
  | cons s rest ih =>
    intro acc m h
    cases hd : s.dataItemRef with
    | none =>
      have hred : constructTypesLoop scope names acc (s :: rest) =
          constructTypesLoop scope names acc rest := by
        show (match s.dataItemRef with
          | none => constructTypesLoop scope names acc rest
          | some d => do
            let ty ← constructTypeOf scope names d
            let acc1 ← insertChecked acc d.name ty Err.duplicateType
            constructTypesLoop scope names acc1 rest) = _
        rw [hd]
      rw [hred] at h
      obtain ⟨h1, h2⟩ := ih acc m h
      exact ⟨by simp [List.filterMap_cons, hd, h1], h2⟩
    | some d =>
      have hred0 : constructTypesLoop scope names acc (s :: rest) = (do
          let ty ← constructTypeOf scope names d
          let acc1 ← insertChecked acc d.name ty Err.duplicateType
          constructTypesLoop scope names acc1 rest) := by
        show (match s.dataItemRef with
          | none => constructTypesLoop scope names acc rest
          | some d => do
            let ty ← constructTypeOf scope names d
            let acc1 ← insertChecked acc d.name ty Err.duplicateType
            constructTypesLoop scope names acc1 rest) = _
        rw [hd]
      cases hty : constructTypeOf scope names d with
      | error e =>
        rw [hred0, hty] at h
        exact Except.noConfusion
          (show (Except.error e : Except Err (List (String × Ty))) = Except.ok m from h)
      | ok ty =>
        have hstep : (do
            let tyv ← constructTypeOf scope names d
            let acc1 ← insertChecked acc d.name tyv Err.duplicateType
            constructTypesLoop scope names acc1 rest) = (do
            let acc1 ← insertChecked acc d.name ty Err.duplicateType
            constructTypesLoop scope names acc1 rest) := by
          rw [hty]
          rfl
        cases hins : insertChecked acc d.name ty Err.duplicateType with
        | error e =>
          rw [hred0, hstep, hins] at h
          exact Except.noConfusion
            (show (Except.error e : Except Err (List (String × Ty))) = Except.ok m from h)
        | ok acc1 =>
          rw [hred0, hstep, hins] at h
          obtain ⟨hnotmem, hacc1⟩ := insertChecked_ok_elim hins
          obtain ⟨h1, h2⟩ := ih acc1 m
            (show constructTypesLoop scope names acc1 rest = Except.ok m from h)
          subst hacc1
          constructor
          · simp [List.filterMap_cons, hd, h1, List.append_assoc]
          · intro hnd
            apply h2
            simp only [List.map_append]
            exact List.Nodup.append hnd (by simp)
              (by simpa [List.disjoint_singleton] using hnotmem)

theorem constructFunctionsLoop_keys (recur : Block → ScopeRef → Except Err Code)
    (scope : ScopeRef) :
    ∀ (stmts : List Statement) (acc m : List (String × Function)),
      constructFunctionsLoop recur scope acc stmts = .ok m →
      m.map Prod.fst = acc.map Prod.fst
        ++ (stmts.filterMap Statement.functionItemRef).map FunctionItem.name ∧
      ((acc.map Prod.fst).Nodup → (m.map Prod.fst).Nodup) := by
  intro stmts
  induction stmts with
  | nil =>
    intro acc m h
    injection h with h
    subst h
    simp
  | cons s rest ih =>
    intro acc m h
    cases hf : s.functionItemRef with
    | none =>
      have hred : constructFunctionsLoop recur scope acc (s :: rest) =
          constructFunctionsLoop recur scope acc rest := by
        show (match s.functionItemRef with
          | none => constructFunctionsLoop recur scope acc rest
          | some f => do
            let code ← recur f.body scope
            let acc1 ← insertChecked acc f.name (Function.mk code) Err.duplicateFunction
            constructFunctionsLoop recur scope acc1 rest) = _
        rw [hf]
      rw [hred] at h
      obtain ⟨h1, h2⟩ := ih acc m h
      exact ⟨by simp [List.filterMap_cons, hf, h1], h2⟩
    | some f =>
      have hred0 : constructFunctionsLoop recur scope acc (s :: rest) = (do
          let code ← recur f.body scope
          let acc1 ← insertChecked acc f.name (Function.mk code) Err.duplicateFunction
          constructFunctionsLoop recur scope acc1 rest) := by
        show (match s.functionItemRef with
          | none => constructFunctionsLoop recur scope acc rest
          | some f => do
            let code ← recur f.body scope
            let acc1 ← insertChecked acc f.name (Function.mk code) Err.duplicateFunction
            constructFunctionsLoop recur scope acc1 rest) = _
        rw [hf]
      cases hcode : recur f.body scope with
      | error e =>
        rw [hred0, hcode] at h
        exact Except.noConfusion
          (show (Except.error e : Except Err (List (String × Function))) = Except.ok m from h)
      | ok code =>
        have hstep : (do
            let code1 ← recur f.body scope
            let acc1 ← insertChecked acc f.name (Function.mk code1) Err.duplicateFunction
            constructFunctionsLoop recur scope acc1 rest) = (do
            let acc1 ← insertChecked acc f.name (Function.mk code) Err.duplicateFunction
            constructFunctionsLoop recur scope acc1 rest) := by
          rw [hcode]
          rfl
        cases hins : insertChecked acc f.name (Function.mk code) Err.duplicateFunction with
        | error e =>
          rw [hred0, hstep, hins] at h
          exact Except.noConfusion
            (show (Except.error e : Except Err (List (String × Function))) = Except.ok m from h)
        | ok acc1 =>
          rw [hred0, hstep, hins] at h
          obtain ⟨hnotmem, hacc1⟩ := insertChecked_ok_elim hins
          obtain ⟨h1, h2⟩ := ih acc1 m
            (show constructFunctionsLoop recur scope acc1 rest = Except.ok m from h)
          subst hacc1
          constructor
          · simp [List.filterMap_cons, hf, h1, List.append_assoc]
          · intro hnd
            apply h2
            simp only [List.map_append]
            exact List.Nodup.append hnd (by simp)
              (by simpa [List.disjoint_singleton] using hnotmem)

theorem tokenize_whitespace : ∀ (l : List Char) (fuel : Nat),
    (∀ c ∈ l, wsChar c) → l.length < fuel → tokenize fuel l = .ok [] := by
  intro l
  induction l with
  | nil =>
    intro fuel _ hf
    cases fuel with
    | zero => omega
    | succ f => rfl
  | cons c rest ih =>
    intro fuel hws hf
    cases fuel with
    | zero => omega
    | succ f =>
      have hc : wsChar c := hws c (by simp)
      have hstep : tokenize (f + 1) (c :: rest) = tokenize f rest := by
        simp [tokenize, hc]
      rw [hstep]
      exact ih f (fun u hu => hws u (by simp [hu])) (by simpa using hf)

theorem parseDataTupleLoop_commasep (name : String) :
    ∀ (fs : List String) (f : String) (acc : List String) (rest : List Token),
      parseDataTupleLoop name acc
        (commaSeparatedIdents (f :: fs)
          ++ (Token.parenRight :: Token.semiColon :: rest)) =
        .ok (.single (.tuple name (acc ++ f :: fs)), rest) := by
  intro fs
  induction fs with
  | nil => intro f acc rest; rfl
  | cons f2 fs2 ih =>
    intro f acc rest
    show parseDataTupleLoop name (acc ++ [f])
      (commaSeparatedIdents (f2 :: fs2)
        ++ (Token.parenRight :: Token.semiColon :: rest)) = _
    rw [ih f2 (acc ++ [f]) rest]
    simp

/-! Claim theorems. -/

/-- C3: the spec's parser test input `data E\x7bA, B(Int), C\x7bx: Int\x7d\x7d`
does not parse to Multiple with variants A, B, C; the first variant A
is followed by a comma, which falls into the unimplemented!() arm of
the first-variant classifier (parser.rs line 266; the Marker arm at
line 264 requires a colon and is unreachable for the first variant,
since a peeked colon takes the struct branch), so parse_data aborts. -/
theorem c3_enum_test_input_panics :
    tokenizeText "data E\x7bA, B(Int), C\x7bx: Int\x7d\x7d" = .ok
      [.keywordData, .identifier "E", .braceLeft, .identifier "A", .comma,
       .identifier "B", .parenLeft, .identifier "Int", .parenRight, .comma,
       .identifier "C", .braceLeft, .identifier "x", .colon, .identifier "Int",
       .braceRight, .braceRight] ∧
    parseData 18
      [.keywordData, .identifier "E", .braceLeft, .identifier "A", .comma,
       .identifier "B", .parenLeft, .identifier "Int", .parenRight, .comma,
       .identifier "C", .braceLeft, .identifier "x", .colon, .identifier "Int",
       .braceRight, .braceRight] = .error .unimplementedBranch :=
  ⟨rfl, rfl⟩

/-- C4: construct_main_representation does not chain a new ScopeRef for
function bodies; it passes its own scope argument through unchanged
(frontend/mod.rs line 153, marked TODO: Fix scoping), so a body cannot
see the types of its immediately enclosing block.  For
`data T; fn f() \x7b data U(T); \x7d` under the empty root scope the
reference to T inside f aborts with unknown type T, contradicting the
claim that every type of an enclosing block resolves inside the body. -/
theorem c4_function_body_cannot_see_enclosing_block :
    construct_main_representation 3
      (Block.mk [.dataItem (.single (.marker "T")),
        .functionItem (.mk "f" []
          (Block.mk [.dataItem (.single (.tuple "U" ["T"]))]))])
      rootScopeRef = .error (.unknownType "T") ∧
    frontend "data T; fn f() \x7b data U(T); \x7d" = .error (.unknownType "T") :=
  ⟨rfl, rfl⟩

/-- C5 (amended): the construction pass never special-cases the name
Integer; a field type reference named Integer resolves exactly when the
scope chain or the harvested same-block name set contains a type of
that name, like any other name. -/
theorem c5_integer_resolves_only_via_scope (scope : ScopeRef)
    (typeNames : List String) (n : String) :
    (construct_data_representation () (DataVariant.tuple n ["Integer"])
        scope typeNames).isOk
      = typeRefOk scope typeNames "Integer" := by
  rw [construct_data_representation_tuple_eq]
  cases h : typeRefOk scope typeNames "Integer" with
  | true =>
    rw [constructTupleFields_ok_of_all scope typeNames ["Integer"] (by simp [h])]
    rfl
  | false =>
    obtain ⟨t, ht, htbad, heq⟩ := constructTupleFields_unknown_of_exists
      scope typeNames ["Integer"] ⟨"Integer", by simp, by simp [h]⟩
    rw [heq]
    rfl

/-- C5 counterexample: `data A(Integer);` under the empty root scope
aborts with unknown type Integer, refuting "always resolvable". -/
theorem c5_integer_unresolved_counterexample :
    frontend "data A(Integer);" = .error (.unknownType "Integer") := rfl

/-- C6: a field/variant type reference resolves (construction succeeds)
if and only if each referenced name is in the harvested same-block set
or found through the ScopeRef chain; a reference matching neither
yields an unresolved-type error; and the forward reference
`data A(B); data B;` constructs successfully. -/
theorem c6_reference_resolution_iff :
    (∀ (v : DataVariant) (scope : ScopeRef) (names : List String),
      v.declaredFieldNames.Nodup →
      (((construct_data_representation () v scope names).isOk = true ↔
          ∀ t ∈ v.typeRefs, typeRefOk scope names t) ∧
        ((∃ t ∈ v.typeRefs, ¬ typeRefOk scope names t) →
          ∃ t ∈ v.typeRefs, typeRefOk scope names t = false ∧
            construct_data_representation () v scope names =
              .error (.unknownType t)))) ∧
    frontend "data A(B); data B;" =
      .ok (Code.mk (Scope.mk
        [("A", Ty.user (.unnamed ["B"])), ("B", Ty.user .marker)] [])) :=
  ⟨fun v scope names hnd =>
    ⟨construct_data_representation_isOk () v scope names hnd,
     construct_data_representation_unknown () v scope names hnd⟩, rfl⟩

/-- C6 witness: the general equivalence instantiated at the tuple
variant A(B) under the empty root scope with harvested names A, B. -/
theorem c6_reference_resolution_iff_witness :
    (construct_data_representation () (DataVariant.tuple "A" ["B"])
        rootScopeRef ["A", "B"]).isOk = true ↔
      ∀ t ∈ (DataVariant.tuple "A" ["B"]).typeRefs,
        typeRefOk rootScopeRef ["A", "B"] t :=
  (c6_reference_resolution_iff.1 (DataVariant.tuple "A" ["B"])
    rootScopeRef ["A", "B"] (by decide)).1

/-- C8 (amended): for one or more fields (with no trailing comma)
parse_data on `data NAME(T1, ..., Tn);` returns Single(Tuple) with the
fields in declaration order and consumes the terminating semicolon,
handing the remaining tokens back so that a following statement is
parsed in the same block (shown on `data P(Int, Int); data B;`); the
zero-field case is the counterexample. -/
theorem c8_tuple_decl_parses :
    (∀ (name : String) (fields : List String) (rest : List Token) (fuel : Nat),
      fields ≠ [] →
      parseData fuel (tupleDeclTokens name fields ++ rest) =
        .ok (.single (.tuple name fields), rest)) ∧
    (do
      let ts ← tokenizeText "data P(Int, Int); data B;"
      parseBlock (ts.length + 1) ts) =
      .ok (Block.mk [.dataItem (.single (.tuple "P" ["Int", "Int"])),
        .dataItem (.single (.marker "B"))], []) := by
  constructor
  · intro name fields rest fuel hne
    match fields with
    | [] => exact absurd rfl hne
    | f :: fs =>
      show parseDataTupleLoop name []
        ((commaSeparatedIdents (f :: fs)
          ++ [Token.parenRight, Token.semiColon]) ++ rest) = _
      rw [List.append_assoc]
      exact parseDataTupleLoop_commasep name fs f [] rest
  · rfl

/-- C8 witness: the general tuple-declaration theorem instantiated at
`data P(Int, Int);` with no following tokens and zero fuel. -/
theorem c8_tuple_decl_parses_witness :
    parseData 0 (tupleDeclTokens "P" ["Int", "Int"] ++ []) =
      .ok (.single (.tuple "P" ["Int", "Int"]), []) :=
  c8_tuple_decl_parses.1 "P" ["Int", "Int"] [] 0 (by decide)

/-- C8 counterexample: for zero fields the loop-top peek of ParenRight
breaks without consuming the semicolon (parser.rs lines 350-352), so
after `data A();` the block parse stops at the leftover semicolon and
the following `data B;` is not parsed into the same block. -/
theorem c8_zero_field_semicolon_left :
    tokenizeText "data A(); data B;" = .ok
      [.keywordData, .identifier "A", .parenLeft, .parenRight, .semiColon,
       .keywordData, .identifier "B", .semiColon] ∧
    parseData 9
      [.keywordData, .identifier "A", .parenLeft, .parenRight, .semiColon,
       .keywordData, .identifier "B", .semiColon] =
      .ok (.single (.tuple "A" []),
        [.semiColon, .keywordData, .identifier "B", .semiColon]) ∧
    parseBlock 9
      [.keywordData, .identifier "A", .parenLeft, .parenRight, .semiColon,
       .keywordData, .identifier "B", .semiColon] =
      .ok (Block.mk [.dataItem (.single (.tuple "A" []))],
        [.semiColon, .keywordData, .identifier "B", .semiColon]) :=
  ⟨rfl, rfl, rfl⟩

/-- C10: on whitespace-only or empty input the tokenizer yields no
tokens, parse_block returns an empty block consuming nothing, the IR is
a Code whose scope has empty type and function maps, and the emitted
output is the empty string. -/
theorem c10_whitespace_only_pipeline (s : String)
    (hws : ∀ c ∈ s.toList, wsChar c) :
    tokenizeText s = .ok [] ∧
    parseBlock 1 [] = .ok (Block.mk [], []) ∧
    construct_main_representation 1 (Block.mk []) rootScopeRef =
      .ok (Code.mk (Scope.mk [] [])) ∧
    Javascript.renderBlock
      (from_main_representation (Code.mk (Scope.mk [] []))) = "" ∧
    pipeline s = .ok "" := by
  have h1 : tokenizeText s = .ok [] :=
    tokenize_whitespace s.toList (s.toList.length + 1) hws (by omega)
  refine ⟨h1, rfl, rfl, rfl, ?_⟩
  unfold pipeline frontend
  rw [h1]
  rfl

/-- C1 counterexample: the emitter iterates `Scope.types`, a std
HashMap whose iteration order is a seed-dependent permutation of its
entries, so two runs of the pipeline on `data A; data B;` can observe
the two listed orders; they render to different byte strings, refuting
byte-identical output across runs. -/
theorem c1_output_depends_on_map_order :
    frontend "data A; data B;" =
      .ok (Code.mk (Scope.mk
        [("A", Ty.user .marker), ("B", Ty.user .marker)] [])) ∧
    [("A", Ty.user .marker), ("B", Ty.user .marker)].Perm
      [("B", Ty.user .marker), ("A", Ty.user .marker)] ∧
    Javascript.renderBlock (fromMainRepresentationOrd
        [("A", Ty.user .marker), ("B", Ty.user .marker)]) ≠
      Javascript.renderBlock (fromMainRepresentationOrd
        [("B", Ty.user .marker), ("A", Ty.user .marker)]) :=
  ⟨rfl, by decide, by decide⟩

/-- C1 (amended): two runs differ only in the iteration order of the
types map, which is always a permutation of the same entries; the
emitted statement lists under any two such orders are permutations of
each other, so the output is stable up to reordering of the emitted
class statements (and byte-identical when the orders coincide). -/
theorem c1_output_stable_up_to_permutation (o₁ o₂ : List (String × Ty))
    (h : o₁.Perm o₂) :
    (fromMainRepresentationOrd o₁).stmts.Perm
      (fromMainRepresentationOrd o₂).stmts := by
  simpa [fromMainRepresentationOrd] using
    (h.filterMap (fun p => p.2.formatRef.map (classOfFormat p.1))).map
      Javascript.Statement.classItem

/-- C1 witness: the permutation theorem at the two concrete orders of
the map built from `data A; data B;`. -/
theorem c1_output_stable_up_to_permutation_witness :
    (fromMainRepresentationOrd
        [("A", Ty.user .marker), ("B", Ty.user .marker)]).stmts.Perm
      (fromMainRepresentationOrd
        [("B", Ty.user .marker), ("A", Ty.user .marker)]).stmts :=
  c1_output_stable_up_to_permutation _ _ (by decide)

/-- C2 counterexample: itertools dedup() removes only CONSECUTIVE
duplicates, so with variants B\x7bx\x7d, C\x7by\x7d, D\x7bx\x7d the
emitted constructor field list is _variant, x, y, x: the name x appears
twice, not the claimed deduplicated union _variant, x, y. -/
theorem c2_dedup_is_consecutive_only :
    from_main_representation (Code.mk (Scope.mk [("T", Ty.user (.named []
      [("B", .named [("x", "Int")] ()), ("C", .named [("y", "Int")] ()),
       ("D", .named [("x", "Int")] ())]))] [])) =
      Javascript.Block.mk
        [.classItem ⟨"T", ["_variant", "x", "y", "x"]⟩] ∧
    ["_variant", "x", "y", "x"] ≠ ["_variant", "x", "y"] ∧
    ¬ ["_variant", "x", "y", "x"].Nodup :=
  ⟨rfl, by decide, by decide⟩

/-- C2 (amended): for every type in the scope with a Named format, the
emitted block contains a class with that name whose fields list is the
leading _variant (exactly when variants is non-empty), then the
format's own field names in map order, then the concatenation of all
variants' field-name streams in map order with only consecutive
duplicate names collapsed (itertools dedup) — a name may therefore
recur non-consecutively; the rendered constructor binds these as
positional parameters assigned into same-named properties. -/
theorem c2_named_class_fields (code : Code) (n : String)
    (fields : List (String × String))
    (variants : List (String × EnumVariantFormat))
    (h : (n, Ty.user (.named fields variants)) ∈ code.scope.types) :
    Javascript.Statement.classItem ⟨n,
      (if variants.isEmpty then [] else ["_variant"])
        ++ fields.map Prod.fst
        ++ dedupConsecutive
          ((variants.map fun v => variantFieldNames v.2).flatten)⟩
      ∈ (from_main_representation code).stmts := by
  unfold from_main_representation fromMainRepresentationOrd
  exact List.mem_map_of_mem _ (List.mem_filterMap.mpr
    ⟨(n, Ty.user (.named fields variants)), h, rfl⟩)

/-- C2 witness: the fields-list theorem at the concrete one-type code
of the counterexample. -/
theorem c2_named_class_fields_witness :
    Javascript.Statement.classItem ⟨"T", ["_variant", "x", "y", "x"]⟩ ∈
      (from_main_representation (Code.mk (Scope.mk [("T", Ty.user (.named []
        [("B", .named [("x", "Int")] ()), ("C", .named [("y", "Int")] ()),
         ("D", .named [("x", "Int")] ())]))] []))).stmts :=
  c2_named_class_fields _ "T" []
    [("B", .named [("x", "Int")] ()), ("C", .named [("y", "Int")] ()),
     ("D", .named [("x", "Int")] ())] (List.mem_singleton.mpr rfl)

/-- C9: duplicate-name insertions are fatal: duplicate data-item names
in a block make construction fail, duplicate function names make
construction fail, a duplicate field name in a struct whose types all
resolve aborts with a duplicate-field error, duplicate variant names
(each variant individually constructible) abort with a
duplicate-variant error, and `data X; data X;` fails with the
duplicate-type error on X. -/
theorem c9_duplicate_names_fatal :
    (∀ (block : Block) (scope : ScopeRef) (fuel : Nat),
      ¬ (dataNames block).Nodup →
      (construct_main_representation fuel block scope).isOk = false) ∧
    (∀ (block : Block) (scope : ScopeRef) (fuel : Nat),
      ¬ (functionNames block).Nodup →
      (construct_main_representation fuel block scope).isOk = false) ∧
    (∀ (n : String) (fields : List (String × String)) (scope : ScopeRef)
        (names : List String),
      (∀ t ∈ fields.map Prod.snd, typeRefOk scope names t) →
      ¬ (fields.map Prod.fst).Nodup →
      ∃ d, construct_data_representation () (DataVariant.struct n fields)
        scope names = .error (.duplicateField d)) ∧
    (∀ (variants : List DataVariant) (scope : ScopeRef) (names : List String),
      (∀ v ∈ variants,
        (construct_data_representation () v scope names).isOk = true) →
      ¬ (variants.map DataVariant.name).Nodup →
      ∃ d, constructVariantsLoop scope names [] variants =
        .error (.duplicateVariant d)) ∧
    frontend "data X; data X;" = .error (.duplicateType "X") := by
  refine ⟨?_, ?_, ?_, ?_, rfl⟩
  · intro block scope fuel hbad
    cases fuel with
    | zero => rfl
    | succ fuel =>
      have hred : construct_main_representation (fuel + 1) block scope = (do
          let types ← constructTypesLoop scope (dataNames block) [] block.stmts
          let functions ← constructFunctionsLoop
            (fun b sc => construct_main_representation fuel b sc)
            scope [] block.stmts
          Except.ok (Code.mk (Scope.mk types functions))) := rfl
      cases hty : constructTypesLoop scope (dataNames block) [] block.stmts with
      | error e => rw [hred, hty]; rfl
      | ok m =>
        obtain ⟨h1, h2⟩ := constructTypesLoop_keys scope (dataNames block)
          block.stmts [] m hty
        have hnd := h2 (by simp)
        rw [h1] at hnd
        exact absurd (by simpa [dataNames] using hnd) hbad
  · intro block scope fuel hbad
    cases fuel with
    | zero => rfl
    | succ fuel =>
      have hred : construct_main_representation (fuel + 1) block scope = (do
          let types ← constructTypesLoop scope (dataNames block) [] block.stmts
          let functions ← constructFunctionsLoop
            (fun b sc => construct_main_representation fuel b sc)
            scope [] block.stmts
          Except.ok (Code.mk (Scope.mk types functions))) := rfl
      cases hty : constructTypesLoop scope (dataNames block) [] block.stmts with
      | error e => rw [hred, hty]; rfl
      | ok types =>
        have hred1 : construct_main_representation (fuel + 1) block scope = (do
            let functions ← constructFunctionsLoop
              (fun b sc => construct_main_representation fuel b sc)
              scope [] block.stmts
            Except.ok (Code.mk (Scope.mk types functions))) := by
          rw [hred, hty]
          rfl
        cases hfn : constructFunctionsLoop
            (fun b sc => construct_main_representation fuel b sc)
            scope [] block.stmts with
        | error e => rw [hred1, hfn]; rfl
        | ok fm =>
          obtain ⟨h1, h2⟩ := constructFunctionsLoop_keys
            (fun b sc => construct_main_representation fuel b sc)
            scope block.stmts [] fm hfn
          have hnd := h2 (by simp)
          rw [h1] at hnd
          exact absurd (by simpa [functionNames] using hnd) hbad
  · intro n fields scope names hok hbad
    obtain ⟨d, hd⟩ := constructStructFields_dup scope names fields [] hok
      (by simp) (by simpa using hbad)
    refine ⟨d, ?_⟩
    rw [construct_data_representation_struct_eq, hd]
    rfl
  · intro variants scope names hok hbad
    exact constructVariantsLoop_dup scope names variants [] hok (by simp)
      (by simpa using hbad)

/-- C9 witness: each duplicate-name check instantiated at a concrete
duplicate: two types X, two functions f, a struct with field x twice,
and a sum type with variant V twice. -/
theorem c9_duplicate_names_fatal_witness :
    (construct_main_representation 1
      (Block.mk [.dataItem (.single (.marker "X")),
        .dataItem (.single (.marker "X"))]) rootScopeRef).isOk = false ∧
    (construct_main_representation 1
      (Block.mk [.functionItem (.mk "f" [] (Block.mk [])),
        .functionItem (.mk "f" [] (Block.mk []))]) rootScopeRef).isOk = false ∧
    (∃ d, construct_data_representation ()
      (DataVariant.struct "S" [("x", "A"), ("x", "A")]) rootScopeRef ["A"] =
        .error (.duplicateField d)) ∧
    (∃ d, constructVariantsLoop rootScopeRef ["E"] []
      [DataVariant.marker "V", DataVariant.marker "V"] =
        .error (.duplicateVariant d)) :=
  ⟨c9_duplicate_names_fatal.1 _ rootScopeRef 1 (by decide),
   c9_duplicate_names_fatal.2.1 _ rootScopeRef 1 (by decide),
   c9_duplicate_names_fatal.2.2.1 "S" [("x", "A"), ("x", "A")]
     rootScopeRef ["A"] (by decide) (by decide),
   c9_duplicate_names_fatal.2.2.2.1 [DataVariant.marker "V", DataVariant.marker "V"]
     rootScopeRef ["E"] (by decide) (by decide)⟩

/-- C10 witness: the whitespace theorem at a concrete blank input. -/
theorem c10_whitespace_only_pipeline_witness :
    tokenizeText "  \n\t " = .ok [] ∧
    parseBlock 1 [] = .ok (Block.mk [], []) ∧
    construct_main_representation 1 (Block.mk []) rootScopeRef =
      .ok (Code.mk (Scope.mk [] [])) ∧
    Javascript.renderBlock
      (from_main_representation (Code.mk (Scope.mk [] []))) = "" ∧
    pipeline "  \n\t " = .ok "" :=
  c10_whitespace_only_pipeline "  \n\t " (by decide)

end RustScript
